import Mathlib

/-!
Verification of the bounded-concurrency load-generation core in
`TestingLB.py`, shallowly embedded in Lean 4.

Modelling conventions:
* Latencies and wall-clock durations are exact rationals (`ℚ`); the Python
  floats are modelled by exact arithmetic.
* A worker's interaction with the network is summarised by a
  `TransportResult`: either the GET completed (with a status code and the
  latency measured from just before the request to after the body was
  drained), or some exception was raised (with the latency measured up to
  the failure point).  The measured times are inputs of the model.
* Python `int()` on a non-negative float is truncation toward zero, and
  Python list indexing raises `IndexError` out of range; both are modelled
  exactly (`pyInt`, `pyIndex`, with `none` standing for the raised error).
* The asyncio semaphore discipline of the dispatcher is modelled as a
  step relation on an abstract scheduler state.
-/

namespace TestingLB

/-- Status component of one worker result: the Python code returns either the
integer `resp.status` or the string `"ERR"` (line 63 / line 66). -/
inductive RespStatus where
  | code (c : ℕ)
  | err
  deriving DecidableEq, Repr

/-- What the transport did for one request: a completed response (status and
end-to-end latency, body drained) or an exception raised after a measured
amount of time. -/
inductive TransportResult where
  | response (status : ℕ) (latency : ℚ)
  | exception (latency : ℚ)
  deriving DecidableEq, Repr

/-- The latency the worker's `time.perf_counter()` bracketing measures for a
given transport behaviour. -/
def TransportResult.latency : TransportResult → ℚ
  | .response _ l => l
  | .exception l => l

/-- The `try` block of `worker` (TestingLB.py lines 59-63): it either returns
the pair `(resp.status, latency_ms)` or raises, with the latency measured up
to the failure point available to the handler. -/
def attempt : TransportResult → Except ℚ (ℕ × ℚ)
  | .response s l => .ok (s, l)
  | .exception l => .error l

/-- `worker` (TestingLB.py lines 56-66): performs one GET and returns one
`(status, latency_ms)` pair, catching every exception into `("ERR", latency_ms)`. -/
def worker (t : TransportResult) : RespStatus × ℚ :=
  match attempt t with
  | .ok (s, l) => (RespStatus.code s, l)
  | .error l => (RespStatus.err, l)

/-- The success test `r[0] == 200` used in `run_test` (line 90); the Python
comparison `"ERR" == 200` is `False`. -/
def isOk (r : RespStatus × ℚ) : Bool :=
  decide (r.1 = RespStatus.code 200)

/-- `ok = [r for r in results if r[0] == 200]` (line 90). -/
def okResults (results : List (RespStatus × ℚ)) : List (RespStatus × ℚ) :=
  results.filter isOk

/-- `err = [r for r in results if r[0] != 200]` (line 91). -/
def errResults (results : List (RespStatus × ℚ)) : List (RespStatus × ℚ) :=
  results.filter (fun r => !isOk r)

/-- `latencies = sorted([r[1] for r in ok])` (line 93). -/
def latenciesOf (results : List (RespStatus × ℚ)) : List ℚ :=
  ((okResults results).map Prod.snd).insertionSort (· ≤ ·)

/-- Python `int()` applied to an exact value: truncation toward zero. -/
def pyInt (x : ℚ) : ℤ :=
  if 0 ≤ x then ⌊x⌋ else ⌈x⌉

/-- Python list indexing `xs[i]`: a negative index counts from the end, an
index still out of range raises `IndexError` (modelled as `none`). -/
def pyIndex (xs : List ℚ) (i : ℤ) : Option ℚ :=
  let j := if i < 0 then i + xs.length else i
  if 0 ≤ j then xs[j.toNat]? else none

/-- The index expression `int((p / 100) * (len(latencies) - 1))` of
`percentile` (line 98), as a function of `p` and the list length. -/
def percentileIndex (p : ℚ) (n : ℕ) : ℤ :=
  pyInt ((p / 100) * ((n : ℚ) - 1))

/-- `percentile` (TestingLB.py lines 95-99), over the already-sorted
`latencies` list it closes over: empty list gives `0`, otherwise the element
at index `int((p / 100) * (len(latencies) - 1))`. -/
def percentile (latencies : List ℚ) (p : ℚ) : Option ℚ :=
  if latencies = [] then some 0
  else pyIndex latencies (percentileIndex p latencies.length)

/-- The throughput expression `config['total_requests'] / total_time`
(line 103).  Python raises `ZeroDivisionError` when the denominator is zero
(modelled as `none`); there is no guard in the source. -/
def throughput (total_requests : ℤ) (total_time : ℚ) : Option ℚ :=
  if total_time = 0 then none else some ((total_requests : ℚ) / total_time)

/-- Python truthiness of an optional integer argument: `None` and `0` are
falsy, every other integer is truthy. -/
def truthyInt : Option ℤ → Bool
  | none => false
  | some n => decide (n ≠ 0)

/-- Python truthiness of an optional string argument: `None` and `""` are
falsy. -/
def truthyStr : Option String → Bool
  | none => false
  | some s => !s.isEmpty

/-- The configuration dictionary `parse_args` returns. -/
structure Config where
  query : String
  total_requests : ℤ
  concurrency : ℤ
  host : String
  port : String
  deriving DecidableEq, Repr

/-- `parse_args` (TestingLB.py lines 15-53) after argparse has produced the
optional `--query`, `--requests`, `--concurrency` values: with
`--default-test` it returns the defaults; otherwise it exits with an error
(`none`) unless `args.query and args.requests and args.concurrency` is
truthy, and returns the supplied values when it is. -/
def parse_args (defaultTest : Bool) (query : Option String)
    (requests concurrency : Option ℤ) (host port : String) : Option Config :=
  if defaultTest then
    some ⟨"hello-world", 500, 50, "127.0.0.1", "8000"⟩
  else if truthyStr query && truthyInt requests && truthyInt concurrency then
    some ⟨query.getD "", requests.getD 0, concurrency.getD 0, host, port⟩
  else
    none

/-- Number of work units `run_test` schedules: `len(range(total_requests))`,
which is zero when `total_requests` is zero or negative. -/
def numWorkUnits (total : ℤ) : ℕ :=
  total.toNat

/-- The tasks created by `run_test` (lines 82-85): one `worker` call per
element of `range(total_requests)`; `range` of a non-positive bound is empty.
`gather` preserves the task order, so the run's `results` list is the map of
`worker` over the per-task transport behaviours. -/
def runResults (responses : List TransportResult) : List (RespStatus × ℚ) :=
  responses.map worker

/-- The aggregate report of `run_test` (lines 101-112): success and error
counts, the three percentiles, and `latencies[-1]` as the max (printed only
when `latencies` is non-empty, so `none` models the absent/undefined max of
an empty ok-set). -/
def summary (results : List (RespStatus × ℚ)) :
    ℕ × ℕ × Option ℚ × Option ℚ × Option ℚ × Option ℚ :=
  ((okResults results).length,
   (errResults results).length,
   percentile (latenciesOf results) 50,
   percentile (latenciesOf results) 90,
   percentile (latenciesOf results) 99,
   (latenciesOf results).getLast?)

/-!
Dispatcher model.  `run_test` creates one task per work unit; each task's
`worker` does `async with sem` around its whole attempt (lines 56-66), where
`sem = asyncio.Semaphore(concurrency)` (line 71).  The scheduler state counts
work units that have not yet entered the semaphore (`waiting`), ones inside
the `async with` block (`running`), completed ones (`done`), and the
semaphore's free-permit count (`permits`).
-/

/-- Abstract state of the dispatcher: counts of work units waiting to acquire
the semaphore, running inside it, finished, and the free permits of the
semaphore. -/
structure DispatchState where
  waiting : ℕ
  running : ℕ
  done : ℕ
  permits : ℕ
  deriving DecidableEq, Repr

/-- Initial state: all `total` work units waiting, semaphore holding
`conc` permits. -/
def initState (total conc : ℕ) : DispatchState :=
  ⟨total, 0, 0, conc⟩

/-- One scheduler transition.  `acquire` is a waiting task entering
`async with sem` when a permit is free; the two `finish` transitions are the
two exit paths of the `with` block — normal return (line 63) and the
`except` path (line 66) — and both release the permit, because `async with`
releases on every exit path. -/
inductive DispatchStep : DispatchState → DispatchState → Prop
  | acquire (s : DispatchState) (hw : 0 < s.waiting) (hp : 0 < s.permits) :
      DispatchStep s ⟨s.waiting - 1, s.running + 1, s.done, s.permits - 1⟩
  | finishSuccess (s : DispatchState) (hr : 0 < s.running) :
      DispatchStep s ⟨s.waiting, s.running - 1, s.done + 1, s.permits + 1⟩
  | finishFailure (s : DispatchState) (hr : 0 < s.running) :
      DispatchStep s ⟨s.waiting, s.running - 1, s.done + 1, s.permits + 1⟩

/-- A state the run can be in: reachable from the initial state by scheduler
transitions. -/
def Reachable (total conc : ℕ) (s : DispatchState) : Prop :=
  Relation.ReflTransGen DispatchStep (initState total conc) s

/-- A state from which no transition is possible: the run has completed. -/
def Terminal (s : DispatchState) : Prop :=
  ∀ s', ¬ DispatchStep s s'

lemma reachable_invariant {total conc : ℕ} {s : DispatchState}
    (h : Reachable total conc s) :
    s.permits + s.running = conc ∧ s.waiting + s.running + s.done = total := by
  induction h with
  | refl => simp [initState]
  | tail _ step ih =>
    cases step with
    | acquire hw hp => simp only at ih ⊢; omega
    | finishSuccess hr => simp only at ih ⊢; omega
    | finishFailure hr => simp only at ih ⊢; omega

/-! Helper lemmas shared by the claim theorems. -/

lemma percentileIndex_eq_floor {p : ℚ} (n : ℕ) (h0 : 0 ≤ p) (hn : 1 ≤ n) :
    percentileIndex p n = ⌊(p / 100) * ((n : ℚ) - 1)⌋ := by
  have hsub : (0 : ℚ) ≤ (n : ℚ) - 1 := by
    have : (1 : ℚ) ≤ (n : ℚ) := by exact_mod_cast hn
    linarith
  have hx : (0 : ℚ) ≤ (p / 100) * ((n : ℚ) - 1) :=
    mul_nonneg (div_nonneg h0 (by norm_num)) hsub
  simp [percentileIndex, pyInt, hx]

lemma percentileIndex_bounds {p : ℚ} (n : ℕ) (h0 : 0 ≤ p) (h1 : p ≤ 100)
    (hn : 1 ≤ n) : 0 ≤ percentileIndex p n ∧ percentileIndex p n < n := by
  rw [percentileIndex_eq_floor n h0 hn]
  have hsub : (0 : ℚ) ≤ (n : ℚ) - 1 := by
    have : (1 : ℚ) ≤ (n : ℚ) := by exact_mod_cast hn
    linarith
  have hx : (0 : ℚ) ≤ (p / 100) * ((n : ℚ) - 1) :=
    mul_nonneg (div_nonneg h0 (by norm_num)) hsub
  refine ⟨Int.floor_nonneg.mpr hx, Int.floor_lt.mpr ?_⟩
  have hdiv : p / 100 ≤ 1 := (div_le_one (by norm_num)).mpr h1
  have hle : (p / 100) * ((n : ℚ) - 1) ≤ (n : ℚ) - 1 :=
    mul_le_of_le_one_left hsub hdiv
  push_cast
  linarith

lemma pyIndex_of_nonneg_lt (xs : List ℚ) (i : ℤ) (h0 : 0 ≤ i)
    (_h1 : i < xs.length) : pyIndex xs i = xs[i.toNat]? := by
  have hj : (if i < 0 then i + (xs.length : ℤ) else i) = i := if_neg (by omega)
  simp only [pyIndex]
  rw [hj, if_pos h0]

/-- Claim C1: for every list of ok-latencies and every p in [0,100],
`percentile(p)` returns 0 on the empty list, and otherwise returns exactly
the element at index `floor(p/100 * (n-1))` of the list sorted ascending
(nearest-rank, zero-indexed, no interpolation), that access being in range. -/
theorem percentile_nearest_rank (lats : List ℚ) (p : ℚ) (h0 : 0 ≤ p)
    (h1 : p ≤ 100) :
    (lats = [] → percentile (lats.insertionSort (· ≤ ·)) p = some 0) ∧
    (lats ≠ [] → ∃ k : ℕ,
      (k : ℤ) = ⌊(p / 100) * ((lats.length : ℚ) - 1)⌋ ∧
      percentile (lats.insertionSort (· ≤ ·)) p =
        (lats.insertionSort (· ≤ ·))[k]? ∧
      ((lats.insertionSort (· ≤ ·))[k]?).isSome = true) := by
  constructor
  · rintro rfl
    simp [percentile, List.insertionSort]
  · intro hne
    have hn : 1 ≤ lats.length := List.length_pos.mpr hne
    have hlen : (lats.insertionSort (· ≤ ·)).length = lats.length :=
      List.length_insertionSort _ _
    have hsne : lats.insertionSort (· ≤ ·) ≠ [] := by
      intro hcontra
      rw [hcontra] at hlen
      simp at hlen
      omega
    obtain ⟨hk0, hk1⟩ := percentileIndex_bounds lats.length h0 h1 hn
    refine ⟨(percentileIndex p lats.length).toNat, ?_, ?_, ?_⟩
    · rw [Int.toNat_of_nonneg hk0, percentileIndex_eq_floor lats.length h0 hn]
    · rw [percentile, if_neg hsne, hlen]
      exact pyIndex_of_nonneg_lt _ _ hk0 (by omega)
    · rw [List.getElem?_eq_getElem (by omega)]
      rfl

/-- Claim C1 witness at a concrete list and percentile. -/
theorem percentile_nearest_rank_witness :
    ((0 : ℚ) ≤ 50 ∧ (50 : ℚ) ≤ 100) ∧
    (([3, 1, 2] : List ℚ) ≠ [] → ∃ k : ℕ,
      (k : ℤ) = ⌊((50 : ℚ) / 100) * ((([3, 1, 2] : List ℚ).length : ℚ) - 1)⌋ ∧
      percentile (([3, 1, 2] : List ℚ).insertionSort (· ≤ ·)) 50 =
        (([3, 1, 2] : List ℚ).insertionSort (· ≤ ·))[k]? ∧
      ((([3, 1, 2] : List ℚ).insertionSort (· ≤ ·))[k]?).isSome = true) :=
  ⟨⟨by norm_num, by norm_num⟩,
    (percentile_nearest_rank [3, 1, 2] 50 (by norm_num) (by norm_num)).2⟩

/-- Claim C7: on a non-empty list of ok-latencies, `percentile(100)` is the
last element of the sorted list (the value reported as max latency), and that
value is a maximum of the ok-latencies: it is one of them and bounds them
all. -/
theorem percentile_hundred_is_max (lats : List ℚ) (h : lats ≠ []) :
    percentile (lats.insertionSort (· ≤ ·)) 100 =
      (lats.insertionSort (· ≤ ·)).getLast? ∧
    ∃ m, (lats.insertionSort (· ≤ ·)).getLast? = some m ∧
      m ∈ lats ∧ ∀ x ∈ lats, x ≤ m := by
  have hn : 1 ≤ lats.length := List.length_pos.mpr h
  have hlen : (lats.insertionSort (· ≤ ·)).length = lats.length :=
    List.length_insertionSort _ _
  have hsne : lats.insertionSort (· ≤ ·) ≠ [] := by
    intro hcontra
    rw [hcontra] at hlen
    simp at hlen
    omega
  have hperm : List.Perm (lats.insertionSort (· ≤ ·)) lats :=
    List.perm_insertionSort _ _
  have hsorted : (lats.insertionSort (· ≤ ·)).Sorted (· ≤ ·) :=
    List.sorted_insertionSort _ _
  have hidx : percentileIndex 100 lats.length = (lats.length : ℤ) - 1 := by
    rw [percentileIndex_eq_floor lats.length (by norm_num) hn]
    rw [show ((100 : ℚ) / 100) = 1 by norm_num, one_mul]
    rw [show ((lats.length : ℚ) - 1) = (((lats.length : ℤ) - 1 : ℤ) : ℚ) by
      push_cast; ring]
    exact Int.floor_intCast _
  have hlast : (lats.insertionSort (· ≤ ·)).getLast? =
      some ((lats.insertionSort (· ≤ ·)).getLast hsne) :=
    List.getLast?_eq_getLast_of_ne_nil hsne
  constructor
  · rw [percentile, if_neg hsne, hlen, hidx]
    rw [pyIndex_of_nonneg_lt _ _ (by omega) (by omega)]
    rw [hlast, List.getLast_eq_getElem]
    rw [show ((lats.length : ℤ) - 1).toNat =
      (lats.insertionSort (· ≤ ·)).length - 1 by omega]
    exact List.getElem?_eq_getElem (by omega)
  · refine ⟨(lats.insertionSort (· ≤ ·)).getLast hsne, hlast, ?_, ?_⟩
    · exact hperm.mem_iff.mp (List.getLast_mem hsne)
    · intro x hx
      obtain ⟨i, hi⟩ := List.get_of_mem (hperm.mem_iff.mpr hx)
      have hstep : (lats.insertionSort (· ≤ ·)).get i ≤
          (lats.insertionSort (· ≤ ·)).get
            ⟨(lats.insertionSort (· ≤ ·)).length - 1, by omega⟩ :=
        hsorted.rel_get_of_le (by
          rcases i with ⟨iv, hiv⟩
          exact Fin.mk_le_mk.mpr (by omega))
      rw [← hi, List.getLast_eq_getElem]
      exact hstep

/-- Claim C7 witness at a concrete non-empty list. -/
theorem percentile_hundred_is_max_witness :
    percentile (([2, 5, 3] : List ℚ).insertionSort (· ≤ ·)) 100 =
      (([2, 5, 3] : List ℚ).insertionSort (· ≤ ·)).getLast? ∧
    ∃ m, (([2, 5, 3] : List ℚ).insertionSort (· ≤ ·)).getLast? = some m ∧
      m ∈ ([2, 5, 3] : List ℚ) ∧ ∀ x ∈ ([2, 5, 3] : List ℚ), x ≤ m :=
  percentile_hundred_is_max [2, 5, 3] (by simp)

/-- Claim C10: on a non-empty latencies list and any p with 0 ≤ p ≤ 100, the
index `int((p/100) * (n-1))` computed inside `percentile` lies in `0..n-1`,
so the list access never raises; moreover the bound is indeed not guaranteed
once p exceeds 100. -/
theorem percentile_index_in_bounds (lats : List ℚ) (p : ℚ) (hne : lats ≠ [])
    (h0 : 0 ≤ p) (h1 : p ≤ 100) :
    (0 ≤ percentileIndex p lats.length ∧
      percentileIndex p lats.length < lats.length) ∧
    (percentile lats p).isSome = true ∧
    (∃ (q : ℚ) (n : ℕ), 100 < q ∧ 0 < n ∧ ¬ percentileIndex q n < n) := by
  have hn : 1 ≤ lats.length := List.length_pos.mpr hne
  obtain ⟨hk0, hk1⟩ := percentileIndex_bounds lats.length h0 h1 hn
  refine ⟨⟨hk0, hk1⟩, ?_, ⟨200, 2, by norm_num, by norm_num, ?_⟩⟩
  · rw [percentile, if_neg hne, pyIndex_of_nonneg_lt _ _ hk0 hk1]
    rw [List.getElem?_eq_getElem (by omega)]
    rfl
  · have : percentileIndex 200 2 = 2 := by
      norm_num [percentileIndex, pyInt]
    rw [this]
    norm_num

/-- Claim C10 witness at a concrete list and percentile. -/
theorem percentile_index_in_bounds_witness :
    ((0 ≤ percentileIndex 99 ([4, 7] : List ℚ).length ∧
      percentileIndex 99 ([4, 7] : List ℚ).length < ([4, 7] : List ℚ).length) ∧
    (percentile ([4, 7] : List ℚ) 99).isSome = true ∧
    (∃ (q : ℚ) (n : ℕ), 100 < q ∧ 0 < n ∧ ¬ percentileIndex q n < n)) :=
  percentile_index_in_bounds [4, 7] 99 (by simp) (by norm_num) (by norm_num)

lemma length_filter_partition (l : List (RespStatus × ℚ)) :
    (l.filter isOk).length + (l.filter (fun r => !isOk r)).length = l.length := by
  induction l with
  | nil => rfl
  | cons a l ih =>
    by_cases ha : isOk a <;> simp [List.filter, ha] <;> omega

/-- Claim C2: an outcome is classified a success exactly when the HTTP status
is 200 — any other status and any transport exception is a failure — and
every outcome, failures included, carries the latency measured up to the
point where the attempt resolved. -/
theorem worker_success_iff_200 (t : TransportResult) :
    (isOk (worker t) = true ↔ ∃ l, t = TransportResult.response 200 l) ∧
    (worker t).2 = t.latency := by
  cases t <;>
    simp [worker, attempt, isOk, TransportResult.latency]

/-- Claim C3: the throughput expression
`config['total_requests'] / total_time` is not guarded; at
`elapsed_wall_seconds = 0` it raises `ZeroDivisionError` (modelled `none`)
instead of being guarded as the specification requires. -/
theorem throughput_zero_division : throughput 500 0 = none := by
  simp [throughput]

/-- Claim C4 counterexample: a negative `--requests` value is truthy in
Python, so `parse_args` accepts `total_requests = -5` and returns a
configuration instead of failing with a configuration error. -/
theorem parse_args_accepts_negative :
    parse_args false (some "hello") (some (-5)) (some 3) "127.0.0.1" "8000" =
      some ⟨"hello", -5, 3, "127.0.0.1", "8000"⟩ := by
  decide

/-- Claim C4 (amended): validation rejects a missing or zero
`total_requests`/`concurrency` (Python falsiness) before any request is
issued, while negative values pass validation without a configuration error;
a non-positive `total_requests` schedules zero work units because
`range(total_requests)` is empty. -/
theorem parse_args_rejects_zero (q : Option String) (r c : Option ℤ)
    (host port : String) (t : ℤ) (h : r = some 0 ∨ r = none ∨ c = some 0 ∨ c = none)
    (ht : t ≤ 0) :
    parse_args false q r c host port = none ∧ numWorkUnits t = 0 := by
  constructor
  · rcases h with rfl | rfl | rfl | rfl <;>
      simp [parse_args, truthyInt, truthyStr]
  · simp only [numWorkUnits]
    omega

/-- Claim C4 (amended) witness at concrete arguments. -/
theorem parse_args_rejects_zero_witness :
    parse_args false (some "x") (some 0) (some 7) "h" "p" = none ∧
      numWorkUnits (-5) = 0 :=
  parse_args_rejects_zero (some "x") (some 0) (some 7) "h" "p" (-5)
    (Or.inl rfl) (by norm_num)

/-- Claim C5: the worker is total at its boundary — whenever the attempt
raises, the exception is caught into an `("ERR", latency)` outcome that is
classified a failure, and every transport behaviour yields exactly one
outcome carrying the measured latency. -/
theorem worker_never_propagates (t u : TransportResult) (l : ℚ)
    (h : attempt t = Except.error l) :
    worker t = (RespStatus.err, l) ∧ isOk (worker t) = false ∧
    (worker u).2 = u.latency := by
  refine ⟨?_, ?_, ?_⟩
  · simp [worker, h]
  · simp [worker, h, isOk]
  · cases u <;> simp [worker, attempt, TransportResult.latency]

/-- Claim C5 witness: a timed-out attempt at 7 ms becomes a failure outcome. -/
theorem worker_never_propagates_witness :
    worker (TransportResult.exception 7) = (RespStatus.err, 7) ∧
    isOk (worker (TransportResult.exception 7)) = false ∧
    (worker (TransportResult.response 200 3)).2 =
      (TransportResult.response 200 3).latency :=
  worker_never_propagates (TransportResult.exception 7)
    (TransportResult.response 200 3) 7 rfl

/-- Claim C6: a normally completed run yields one outcome per scheduled
request, and the `ok`/`err` partition is closed-world — success count plus
failure count equals `total_requests`. -/
theorem run_closed_world (responses : List TransportResult) (total : ℕ)
    (h : responses.length = total) :
    (runResults responses).length = total ∧
    (okResults (runResults responses)).length +
      (errResults (runResults responses)).length = total := by
  have hlen : (runResults responses).length = total := by
    simpa [runResults] using h
  refine ⟨hlen, ?_⟩
  rw [okResults, errResults]
  rw [length_filter_partition]
  exact hlen

/-- Claim C6 witness on a three-request run with one success, one non-200
status and one transport failure. -/
theorem run_closed_world_witness :
    (runResults [TransportResult.response 200 1, TransportResult.response 404 2,
      TransportResult.exception 3]).length = 3 ∧
    (okResults (runResults [TransportResult.response 200 1,
      TransportResult.response 404 2, TransportResult.exception 3])).length +
      (errResults (runResults [TransportResult.response 200 1,
        TransportResult.response 404 2, TransportResult.exception 3])).length = 3 :=
  run_closed_world
    [TransportResult.response 200 1, TransportResult.response 404 2,
      TransportResult.exception 3] 3 rfl

/-- Claim C9: the aggregate counts and all latency statistics depend only on
the multiset of outcomes — two result lists that are permutations of each
other produce an identical summary. -/
theorem summary_perm_invariant (rs1 rs2 : List (RespStatus × ℚ))
    (h : rs1.Perm rs2) : summary rs1 = summary rs2 := by
  have hok : (okResults rs1).Perm (okResults rs2) := h.filter _
  have herr : (errResults rs1).Perm (errResults rs2) := h.filter _
  have hmp : (((okResults rs1).map Prod.snd).insertionSort (· ≤ ·)).Perm
      (((okResults rs2).map Prod.snd).insertionSort (· ≤ ·)) :=
    ((List.perm_insertionSort _ _).trans (hok.map Prod.snd)).trans
      (List.perm_insertionSort _ _).symm
  have hlats : latenciesOf rs1 = latenciesOf rs2 :=
    List.eq_of_perm_of_sorted hmp (List.sorted_insertionSort _ _)
      (List.sorted_insertionSort _ _)
  simp only [summary, hok.length_eq, herr.length_eq, hlats]

/-- Claim C9 witness: swapping two outcomes leaves the summary unchanged. -/
theorem summary_perm_invariant_witness :
    summary [(RespStatus.code 200, 1), (RespStatus.err, 2)] =
      summary [(RespStatus.err, 2), (RespStatus.code 200, 1)] :=
  summary_perm_invariant _ _ (List.Perm.swap _ _ _)

/-- Claim C8: in every reachable scheduler state the number of in-flight
workers never exceeds `concurrency` (with `permits + running = concurrency`,
so every acquired permit is released on both exit paths), exactly
`total_requests` work units are accounted for, and a completed (terminal)
run has executed all of them — for any `concurrency ≥ 1`, including the
serial and fully-parallel extremes. -/
theorem dispatcher_gate (total conc : ℕ) (hc : 1 ≤ conc) (s : DispatchState)
    (h : Reachable total conc s) :
    s.running ≤ conc ∧ s.permits + s.running = conc ∧
    s.waiting + s.running + s.done = total ∧
    (Terminal s → s.done = total) := by
  obtain ⟨h1, h2⟩ := reachable_invariant h
  refine ⟨by omega, h1, h2, ?_⟩
  intro ht
  have hr : s.running = 0 := by
    by_contra hr
    exact ht _ (DispatchStep.finishSuccess s (by omega))
  have hw : s.waiting = 0 := by
    by_contra hw
    exact ht _ (DispatchStep.acquire s (by omega) (by omega))
  omega

/-- Claim C8 witness: with two requests at concurrency one, the state after
one admission is reachable and satisfies the gate invariants. -/
theorem dispatcher_gate_witness :
    (DispatchState.mk 1 1 0 0).running ≤ 1 ∧
    (DispatchState.mk 1 1 0 0).permits + (DispatchState.mk 1 1 0 0).running = 1 ∧
    (DispatchState.mk 1 1 0 0).waiting + (DispatchState.mk 1 1 0 0).running +
      (DispatchState.mk 1 1 0 0).done = 2 ∧
    (Terminal (DispatchState.mk 1 1 0 0) → (DispatchState.mk 1 1 0 0).done = 2) := by
  have hstep : DispatchStep (initState 2 1) (DispatchState.mk 1 1 0 0) :=
    DispatchStep.acquire (initState 2 1) (by decide) (by decide)
  exact dispatcher_gate 2 1 (by norm_num) (DispatchState.mk 1 1 0 0)
    (Relation.ReflTransGen.single hstep)

end TestingLB
